import Mathlib

/-!
# A shallow embedding of `AzionVectorStore`

This file models the core logic of
`src/templates/typescript/azion-react-agent/src/langchain-components/AzionVectorStore.ts`:
the batch chunker (`createInsertChunks`), the statement builder
(`createInsertStatement`, `createInsertString`, `escapeQuotes`,
`generateMetadata`, `generateFilters`, the full-text and similarity query
strings), the result merger (`removeDuplicates`), the search response
handling (`errorHandler`, `searchError`, `mapRows`, `mapSearches`), and the
table-setup existence check (`areTablesSetup`, `handleTables`).

Modelling conventions:
* JavaScript strings are Lean `String`s; `TextEncoder().encode(s).length`
  is `String.utf8ByteSize`.
* JavaScript `undefined` is `Option.none` at the positions where the source
  can produce it.
* A thrown exception is `Except.error msg` where `msg` is the message of the
  `Error` object; a normally returned value is `Except.ok`.
* JavaScript numbers appearing in rows and scores are modelled as `Int`
  (no claim computes with their fractional part); `Option Int` is used where
  `NaN` can appear (`none` models `NaN`).
* Characters such as the single quote are introduced through `Char.ofNat`
  so that generated SQL text can be written explicitly.
-/

/-! ## Characters and small string helpers -/

def squoteChar : Char := Char.ofNat 39

def dquoteChar : Char := Char.ofNat 34

def spaceChar : Char := Char.ofNat 32

def tabChar : Char := Char.ofNat 9

def backslashChar : Char := Char.ofNat 92

def sqS : String := String.singleton squoteChar

def dqS : String := String.singleton dquoteChar

/-- Models `Array.prototype.join(sep)`: the elements separated by `sep`,
the empty string for an empty array. -/
def joinWith (sep : String) : List String → String
  | [] => ""
  | [s] => s
  | s :: t :: rest => s ++ sep ++ joinWith sep (t :: rest)

/-- Models `new TextEncoder().encode(str).length` (source `getStringBytes`,
lines 587-591): the UTF-8 byte length of the string. -/
def getStringBytes (str : String) : Nat := str.utf8ByteSize

/-! ## JavaScript values, records and documents -/

/-- A primitive JSON/JavaScript value as it occurs in document metadata and
in database rows. Nested objects and arrays never occur in the code paths
the claims exercise and are not modelled. -/
inductive JValue where
  | jnull
  | jbool (b : Bool)
  | jnum (n : Int)
  | jstr (s : String)
deriving DecidableEq

/-- A JavaScript object with string keys (`Record<string, any>` in the
source), in insertion order. -/
abbrev JRecord := List (String × JValue)

/-- Property lookup `r[k]`: `none` models JavaScript `undefined`. -/
def recordGet (r : JRecord) (k : String) : Option JValue :=
  (r.find? (fun p => p.1 == k)).map (fun p => p.2)

/-- A LangChain `Document`: `pageContent` is `Option String` because
`searchError` can construct a document whose page content is the JavaScript
`undefined` (see `searchError`). -/
structure LCDocument where
  pageContent : Option String
  metadata : JRecord
  id : Option String
deriving DecidableEq

/-- A JavaScript number that may be `NaN` (`none`). -/
abbrev JSNumber := Option Int

/-! ## Result merger (`removeDuplicates`, source lines 735-762) -/

/-- The `searchtype` tag of a result document
(`result[0].metadata?.searchtype` in the source). -/
def searchtype (d : LCDocument) : Option JValue :=
  recordGet d.metadata "searchtype"

/-- The loop of `removeDuplicates`: `seen` is the `seenIds` set (a list with
membership, matching `Set<string | undefined>`), `similarityCount` and
`ftsCount` the two counters. Each iteration first processes the result
(accepting it only when its id is unseen and its origin tag is under quota)
and then breaks as soon as `similarityCount + ftsCount === maxItems`, where
`maxItems = kfts + kvector`. -/
def removeDuplicatesLoop (kfts kvector : Nat) :
    List (LCDocument × JSNumber) → List (Option String) → Nat → Nat →
    List (LCDocument × JSNumber)
  | [], _, _, _ => []
  | result :: rest, seen, similarityCount, ftsCount =>
    if result.1.id ∉ seen ∧ searchtype result.1 = some (JValue.jstr "similarity") ∧
        similarityCount < kvector then
      result :: (if similarityCount + 1 + ftsCount = kfts + kvector then []
        else removeDuplicatesLoop kfts kvector rest (result.1.id :: seen)
          (similarityCount + 1) ftsCount)
    else if result.1.id ∉ seen ∧ searchtype result.1 = some (JValue.jstr "fulltextsearch") ∧
        ftsCount < kfts then
      result :: (if similarityCount + (ftsCount + 1) = kfts + kvector then []
        else removeDuplicatesLoop kfts kvector rest (result.1.id :: seen)
          similarityCount (ftsCount + 1))
    else
      if similarityCount + ftsCount = kfts + kvector then []
      else removeDuplicatesLoop kfts kvector rest seen similarityCount ftsCount

/-- `removeDuplicates(results, kfts, kvector)` (source lines 735-762). -/
def removeDuplicates (results : List (LCDocument × JSNumber)) (kfts kvector : Nat) :
    List (LCDocument × JSNumber) :=
  removeDuplicatesLoop kfts kvector results [] 0 0

/-! ## Batch chunker (`createInsertChunks`, source lines 547-580)

In the source, `maxMbSize = 0.8 * 1024 * 1024 = 838860.8`. Every size that
is compared against it is an integer byte count `b`, and for integers
`b > 838860.8` iff `maxMbFloor < b` and `b < 838860.8` iff `b ≤ maxMbFloor`
with `maxMbFloor = 838860`, so the floating threshold is modelled by that
integer floor.

The `for (const statement of originalStatements)` loop iterates over the
array object `originalStatements` pointed to when the loop starts; the
re-assignments `originalStatements = originalStatements.slice(1)` inside the
body only rebind the variable, so the `for` loop visits every statement once,
in order, and afterwards the variable holds an empty array, ending the outer
`while`. The test `originalStatements.length == 1` is therefore true exactly
at the last statement. The loop below is that unrolled iteration:
the accumulating chunk is `array`, and each step sees whether the remaining
list `rest` is empty (= the current statement is the last one). -/

def maxChunkLength : Nat := 1000

def maxMbFloor : Nat := 838860

def createInsertChunksLoop (array : List String) :
    List String → List (List String)
  | [] => []
  | statement :: rest =>
    let totalStringBytes := getStringBytes statement + getStringBytes (joinWith " " array)
    if maxMbFloor < totalStringBytes ∨ maxChunkLength < array.length + 1 then
      array :: createInsertChunksLoop [statement] rest
    else if rest = [] then
      [array ++ [statement]]
    else
      createInsertChunksLoop (array ++ [statement]) rest

/-- `createInsertChunks(statements)` (source lines 547-580). -/
def createInsertChunks (statements : List String) : List (List String) :=
  let totalSize := getStringBytes (joinWith " " statements)
  if totalSize ≤ maxMbFloor ∧ statements.length < maxChunkLength then
    [statements]
  else
    createInsertChunksLoop [] statements

/-! ## Statement builder -/

/-- A value as it appears in the heterogeneous `values` array handed to
`createInsertString`: the document content (a string), the embedding (a
number array), the JSON-serialized metadata (a string), or a metadata
lookup result (any primitive value, `vnull` for a missing key). -/
inductive InsValue where
  | vnull
  | vbool (b : Bool)
  | vnum (n : Int)
  | vstr (s : String)
  | varr (a : List Int)
deriving DecidableEq

/-- Template-literal interpolation `${value}` of an `InsValue`
(`Array.prototype.toString` joins a number array with commas). -/
def toTemplateString : InsValue → String
  | .vnull => "null"
  | .vbool b => cond b "true" "false"
  | .vnum n => toString n
  | .vstr s => s
  | .varr a => joinWith "," (a.map (fun n => toString n))

/-- The string transformation of `escapeQuotes` (source lines 895-899):
`value.replace(/'/g, " ").replace(/"/g, ' ')`, i.e. every single and double
quote character becomes a space. A global single-character regex replacement
is a character map. -/
def escapeQuotesStr (value : String) : String :=
  String.mk ((value.data.map (fun c => if c = squoteChar then spaceChar else c)).map
    (fun c => if c = dquoteChar then spaceChar else c))

/-- `escapeQuotes(value)` as invoked on an arbitrary `values` entry:
on a string it strips quotes; on any non-string value (`null`, a number, a
boolean, an array) the property access `value.replace` fails and JavaScript
throws a `TypeError`. -/
def escapeQuotes : InsValue → Except String String
  | .vstr s => .ok (escapeQuotesStr s)
  | _ => .error "TypeError: value.replace is not a function"

/-- The per-value rendering of the expanded-metadata branch of
`createInsertString` (source lines 869-875):
`columnNames[index] === 'embedding' ? vector('[...]') : 'escapeQuotes(value)'`. -/
def renderValuesExpanded (columnNames : List String) (idx : Nat) :
    List InsValue → Except String (List String)
  | [] => .ok []
  | value :: rest =>
    let rendered :=
      if columnNames.get? idx = some "embedding" then
        Except.ok ("vector(" ++ sqS ++ "[" ++ toTemplateString value ++ "]" ++ sqS ++ ")")
      else
        match escapeQuotes value with
        | .ok e => .ok (sqS ++ e ++ sqS)
        | .error err => .error err
    match rendered, renderValuesExpanded columnNames (idx + 1) rest with
    | .ok r, .ok rs => .ok (r :: rs)
    | .error e, _ => .error e
    | .ok _, .error e => .error e

/-- The per-value rendering of the plain-metadata branch of
`createInsertString` (source lines 877-886): the `embedding` column becomes a
vector literal, the `metadata` column is interpolated verbatim
(`'${value}'`, no escaping), every other column goes through `escapeQuotes`. -/
def renderValuesPlain (columnNames : List String) (idx : Nat) :
    List InsValue → Except String (List String)
  | [] => .ok []
  | value :: rest =>
    let rendered :=
      if columnNames.get? idx = some "embedding" then
        Except.ok ("vector(" ++ sqS ++ "[" ++ toTemplateString value ++ "]" ++ sqS ++ ")")
      else if columnNames.get? idx = some "metadata" then
        Except.ok (sqS ++ toTemplateString value ++ sqS)
      else
        match escapeQuotes value with
        | .ok e => .ok (sqS ++ e ++ sqS)
        | .error err => .error err
    match rendered, renderValuesPlain columnNames (idx + 1) rest with
    | .ok r, .ok rs => .ok (r :: rs)
    | .error e, _ => .error e
    | .ok _, .error e => .error e

/-- `createInsertString(columnNames, values)` (source lines 864-888).
The two template literals are reproduced with their exact whitespace
(a trailing space before the newline, then 6 resp. 4 spaces of indentation). -/
def createInsertString (expandedMetadata : Bool) (tableName : String)
    (columnNames : List String) (values : List InsValue) : Except String String :=
  if expandedMetadata then
    match renderValuesExpanded columnNames 0 values with
    | .error e => .error e
    | .ok rendered =>
      .ok ("INSERT INTO " ++ tableName ++ " (" ++ joinWith ", " columnNames ++ ") \n      VALUES ("
        ++ joinWith ", " rendered ++ ")")
  else
    match renderValuesPlain columnNames 0 values with
    | .error e => .error e
    | .ok rendered =>
      .ok ("INSERT INTO " ++ tableName ++ " (" ++ joinWith ", " columnNames ++ ") \n    VALUES ("
        ++ joinWith ", " rendered ++ ")")

/-! ## JSON serialization (`JSON.stringify` on flat records) -/

def hexDigitChar (n : Nat) : Char :=
  Char.ofNat (if n < 10 then 48 + n else 87 + n)

/-- The escaping `JSON.stringify` applies inside a string value: double
quote and backslash get a backslash, the control characters get their
two-letter escapes or a `\u00XX` escape, everything else is copied. -/
def jsonEscapeChar (c : Char) : String :=
  if c = dquoteChar then String.mk [backslashChar, dquoteChar]
  else if c = backslashChar then String.mk [backslashChar, backslashChar]
  else if c = Char.ofNat 8 then String.mk [backslashChar, Char.ofNat 98]
  else if c = Char.ofNat 9 then String.mk [backslashChar, Char.ofNat 116]
  else if c = Char.ofNat 10 then String.mk [backslashChar, Char.ofNat 110]
  else if c = Char.ofNat 12 then String.mk [backslashChar, Char.ofNat 102]
  else if c = Char.ofNat 13 then String.mk [backslashChar, Char.ofNat 114]
  else if c.toNat < 32 then
    String.mk [backslashChar, Char.ofNat 117, Char.ofNat 48, Char.ofNat 48,
      hexDigitChar (c.toNat / 16), hexDigitChar (c.toNat % 16)]
  else String.singleton c

def jsonStringifyString (s : String) : String :=
  dqS ++ String.join (s.data.map jsonEscapeChar) ++ dqS

def jsonStringifyValue : JValue → String
  | .jnull => "null"
  | .jbool b => cond b "true" "false"
  | .jnum n => toString n
  | .jstr s => jsonStringifyString s

/-- `JSON.stringify` of a flat object, keys in insertion order. -/
def jsonStringify (r : JRecord) : String :=
  "\x7b" ++ joinWith ","
    (r.map (fun kv => jsonStringifyString kv.1 ++ ":" ++ jsonStringifyValue kv.2)) ++ "\x7d"

/-! ## Rows and per-row insert statements -/

/-- `rowsInterface` (source lines 48-52). -/
structure rowsInterface where
  content : String
  embedding : List Int
  metadata : JRecord
deriving DecidableEq

/-- The metadata value of a row as it is placed into the `values` array in
expanded mode: `row.metadata?.[col] ?? null`. -/
def metadataLookup (row : rowsInterface) (col : String) : InsValue :=
  match recordGet row.metadata col with
  | none => .vnull
  | some .jnull => .vnull
  | some (.jbool b) => .vbool b
  | some (.jnum n) => .vnum n
  | some (.jstr s) => .vstr s

/-- `createInsertStatement(row, metadataColumns)` (source lines 498-521). -/
def createInsertStatement (expandedMetadata : Bool) (tableName : String)
    (row : rowsInterface) (metadataColumns : List String) : Except String String :=
  if expandedMetadata then
    createInsertString expandedMetadata tableName
      (["content", "embedding"] ++ metadataColumns)
      ([InsValue.vstr row.content, InsValue.varr row.embedding] ++
        metadataColumns.map (metadataLookup row))
  else
    createInsertString expandedMetadata tableName
      ["content", "embedding", "metadata"]
      [InsValue.vstr row.content, InsValue.varr row.embedding,
        InsValue.vstr (jsonStringify row.metadata)]

/-- `extractMetadataColumns(rows)` (source lines 475-490): the union of all
metadata keys across the rows, in first-appearance order. -/
def extractMetadataColumns (rows : List rowsInterface) : List String :=
  rows.foldl
    (fun acc row => row.metadata.foldl
      (fun acc2 kv => if kv.1 ∈ acc2 then acc2 else acc2 ++ [kv.1]) acc)
    []

/-- `createStatements(rows)` (source lines 528-540); the loop throws at the
first row whose statement construction throws. -/
def createStatements (expandedMetadata : Bool) (tableName : String)
    (rows : List rowsInterface) : Except String (List String) :=
  rows.mapM (fun row =>
    createInsertStatement expandedMetadata tableName row (extractMetadataColumns rows))

/-! ## Query builders -/

/-- `AzionFilter` (source line 12); the operator is kept as its literal
string. -/
structure AzionFilter where
  operator : String
  column : String
  value : String
deriving DecidableEq

/-- `generateFilters(filters)` (source lines 842-856). -/
def generateFilters (filters : Option (List AzionFilter)) : String :=
  match filters with
  | none => ""
  | some fs =>
    if fs.length = 0 then ""
    else
      "AND " ++ joinWith " AND " (fs.map (fun f =>
        if f.operator.toUpper = "IN" ∨ f.operator.toUpper = "NOT IN" then
          f.column ++ " " ++ f.operator ++ " (" ++ f.value ++ ")"
        else
          f.column ++ " " ++ f.operator ++ " " ++ sqS ++ f.value ++ sqS))

/-- `generateMetadata(metadataItems, searchType)` (source lines 821-835). -/
def generateMetadata (expandedMetadata : Bool) (metadataItems : Option (List String))
    (searchType : String) : String :=
  match metadataItems with
  | none => "json_object(" ++ sqS ++ "searchtype" ++ sqS ++ ", " ++ sqS ++ searchType ++ sqS
      ++ ") as metadata"
  | some items =>
    if expandedMetadata then
      "json_object(" ++ sqS ++ "searchtype" ++ sqS ++ "," ++ sqS ++ searchType ++ sqS ++ ","
        ++ joinWith ", " (items.map (fun item => sqS ++ item ++ sqS ++ ", " ++ item))
        ++ ") as metadata"
    else
      "json_patch(json_object("
        ++ joinWith ", " (items.map (fun item =>
             sqS ++ item ++ sqS ++ ", metadata->>" ++ sqS ++ "$." ++ item ++ sqS))
        ++ "), " ++ sqS ++ "\x7b" ++ dqS ++ "searchtype" ++ dqS ++ ":" ++ dqS ++ searchType
        ++ dqS ++ "\x7d" ++ sqS ++ ") as metadata"

/-- ASCII letters and digits, the character class `[a-zA-Z0-9]`. -/
def isAsciiAlphanum (c : Char) : Bool :=
  decide ((65 ≤ c.toNat ∧ c.toNat ≤ 90) ∨ (97 ≤ c.toNat ∧ c.toNat ≤ 122) ∨
    (48 ≤ c.toNat ∧ c.toNat ≤ 57))

/-- The JavaScript regex class `\s` (whitespace). -/
def isJsWhitespace (c : Char) : Bool :=
  decide (c.toNat ∈ [9, 10, 11, 12, 13, 32, 160, 5760, 8232, 8233, 8239, 8287, 12288, 65279]
    ∨ (8192 ≤ c.toNat ∧ c.toNat ≤ 8202))

/-- Models `str.split(' ')` (split on the single space character; adjacent
separators produce empty fragments, the empty string yields one empty
fragment). -/
def jsSplitOnSpace : List Char → List (List Char)
  | [] => [[]]
  | c :: rest =>
    match jsSplitOnSpace rest with
    | [] => [[]]
    | w :: ws => if c = spaceChar then [] :: w :: ws else (c :: w) :: ws

/-- The MATCH pattern of the full-text query (source line 650):
`query.toString().replace(/[^a-zA-Z0-9\s]/g, '').split(' ').join(' OR ')`. -/
def ftsMatchPattern (query : String) : String :=
  joinWith " OR "
    ((jsSplitOnSpace (query.data.filter (fun c => isAsciiAlphanum c || isJsWhitespace c))).map
      String.mk)

/-- The `fullTextQuery` template literal of `AzionFullTextSearch`
(source lines 647-651), with its exact whitespace. -/
def fullTextQueryString (expandedMetadata : Bool) (tableName : String) (query : String)
    (kfts : Nat) (filter : Option (List AzionFilter))
    (metadataItems : Option (List String)) : String :=
  "\n      SELECT id, content, " ++ generateMetadata expandedMetadata metadataItems "fulltextsearch"
    ++ ", rank as bm25_similarity\n      FROM " ++ tableName ++ "_fts  \n      WHERE "
    ++ tableName ++ "_fts MATCH " ++ sqS ++ ftsMatchPattern query ++ sqS ++ " "
    ++ generateFilters filter ++ "\n      LIMIT " ++ toString kfts

/-- The `similarityQuery` template literal of `similaritySearchVectorWithScore`
(source lines 612-615), with its exact whitespace. -/
def similarityQueryString (expandedMetadata : Bool) (tableName : String) (vector : List Int)
    (k : Nat) (filter : Option (List AzionFilter))
    (metadataItems : Option (List String)) : String :=
  "\n      SELECT id, content, " ++ generateMetadata expandedMetadata metadataItems "similarity"
    ++ ", 1 - vector_distance_cos(embedding, vector(" ++ sqS ++ "["
    ++ joinWith "," (vector.map (fun n => toString n)) ++ "]" ++ sqS
    ++ ")) as similarity\n      FROM " ++ tableName ++ "  \n      WHERE rowid IN vector_top_k("
    ++ sqS ++ tableName ++ "_idx" ++ sqS ++ ", vector(" ++ sqS ++ "["
    ++ joinWith "," (vector.map (fun n => toString n)) ++ "]" ++ sqS ++ "), " ++ toString k
    ++ ") " ++ generateFilters filter

/-! ## Parsing flat JSON (`JSON.parse` on the metadata cells)

The metadata cell of a result row is produced by the `json_object` /
`json_patch` projection, a compact flat JSON object whose values are
strings, integers, booleans or null. Only this fragment is modelled
(no nesting, no whitespace, string escapes limited to the ones
`jsonEscapeChar` emits besides `\u`); `none` models a `JSON.parse` failure. -/

def parseJsonStringBody : List Char → Option (List Char × List Char)
  | [] => none
  | c :: rest =>
    if c = dquoteChar then some ([], rest)
    else if c = backslashChar then
      match rest with
      | [] => none
      | e :: rest2 =>
        match (if e = dquoteChar then some dquoteChar
               else if e = backslashChar then some backslashChar
               else if e = Char.ofNat 110 then some (Char.ofNat 10)
               else if e = Char.ofNat 116 then some (Char.ofNat 9)
               else none) with
        | none => none
        | some d =>
          match parseJsonStringBody rest2 with
          | none => none
          | some (s, r) => some (d :: s, r)
    else
      match parseJsonStringBody rest with
      | none => none
      | some (s, r) => some (c :: s, r)

def digitsToNat (l : List Char) : Nat :=
  l.foldl (fun a c => a * 10 + (c.toNat - 48)) 0

def parseJsonIntTok (l : List Char) : Option (Int × List Char) :=
  match l with
  | c :: rest =>
    if c = Char.ofNat 45 then
      match rest.span (fun d => d.isDigit) with
      | ([], _) => none
      | (ds, r) => some (-(Int.ofNat (digitsToNat ds)), r)
    else
      match l.span (fun d => d.isDigit) with
      | ([], _) => none
      | (ds, r) => some (Int.ofNat (digitsToNat ds), r)
  | [] => none

def parseJsonValueFlat (l : List Char) : Option (JValue × List Char) :=
  match l with
  | [] => none
  | c :: rest =>
    if c = dquoteChar then
      (parseJsonStringBody rest).map (fun p => (JValue.jstr (String.mk p.1), p.2))
    else if ("null".data).isPrefixOf l then some (JValue.jnull, l.drop 4)
    else if ("true".data).isPrefixOf l then some (JValue.jbool true, l.drop 4)
    else if ("false".data).isPrefixOf l then some (JValue.jbool false, l.drop 5)
    else
      (parseJsonIntTok l).map (fun p => (JValue.jnum p.1, p.2))

def parseJsonMembersFlat : Nat → List Char → Option (JRecord × List Char)
  | 0, _ => none
  | _ + 1, [] => none
  | fuel + 1, c :: rest =>
    if c = dquoteChar then
      match parseJsonStringBody rest with
      | none => none
      | some (key, r1) =>
        match r1 with
        | [] => none
        | colon :: r2 =>
          if colon = Char.ofNat 58 then
            match parseJsonValueFlat r2 with
            | none => none
            | some (v, r3) =>
              match r3 with
              | [] => none
              | sep :: r4 =>
                if sep = Char.ofNat 44 then
                  (parseJsonMembersFlat fuel r4).map
                    (fun p => ((String.mk key, v) :: p.1, p.2))
                else if sep = Char.ofNat 125 then some ([(String.mk key, v)], r4)
                else none
          else none
    else none

def jsonParseFlat (s : String) : Option JRecord :=
  match s.data with
  | [] => none
  | c :: rest =>
    if c = Char.ofNat 123 then
      if rest = [Char.ofNat 125] then some []
      else
        match parseJsonMembersFlat rest.length rest with
        | some (r, []) => some r
        | _ => none
    else none

/-! ## Database collaborator responses and row mapping -/

/-- The error object of an `AzionDatabaseResponse` / query response. -/
structure DbError where
  message : String
  operation : String
deriving DecidableEq

/-- One `QueryResult` of a query response. -/
structure QueryResult where
  columns : Option (List String)
  rows : Option (List (List JValue))
deriving DecidableEq

/-- The `data` part of a query response. -/
structure QueryData where
  results : Option (List QueryResult)
deriving DecidableEq

/-- The `{ data, error }` shape returned by `useQuery` / `getTables`. -/
structure AzionDatabaseQueryResponse where
  data : Option QueryData
  error : Option DbError
deriving DecidableEq

/-- `errorHandler(error, message)` (source lines 324-334): throws
`new Error(error?.message ?? message)` when an error object is present (the
`?? message` fallback is unreachable because `DbError.message` is always a
string), does nothing otherwise. -/
def errorHandler (error : Option DbError) (message : String) : Except String Unit :=
  match error with
  | some e => .error e.message
  | none => .ok ()

/-- `String(cell)` on a row cell. -/
def jsStringOfCell : Option JValue → String
  | none => "undefined"
  | some .jnull => "null"
  | some (.jbool b) => cond b "true" "false"
  | some (.jnum n) => toString n
  | some (.jstr s) => s

/-- `Number(str)` on the strings this code can meet: the integer literals;
everything else is `NaN` (`none`). -/
def jsNumberOfString (s : String) : JSNumber :=
  match s.data with
  | [] => some 0
  | c :: rest =>
    if c = Char.ofNat 45 then
      if rest ≠ [] ∧ rest.all (fun d => d.isDigit) then
        some (-(Int.ofNat (digitsToNat rest)))
      else none
    else if (c :: rest).all (fun d => d.isDigit) then
      some (Int.ofNat (digitsToNat (c :: rest)))
    else none

/-- `Number(cell)` on a row cell; `none` models `NaN`. -/
def jsNumberOfCell : Option JValue → JSNumber
  | none => none
  | some .jnull => some 0
  | some (.jbool b) => some (cond b 1 0)
  | some (.jnum n) => some n
  | some (.jstr s) => jsNumberOfString s

/-- `SearchEmbeddingsResponse` (source lines 59-67). -/
structure SearchEmbeddingsResponse where
  id : JSNumber
  content : String
  metadata : JRecord
  similarity : JSNumber
deriving DecidableEq

/-- `mapRows(results)` (source lines 769-795). A metadata cell that fails
`JSON.parse` would throw in JavaScript; no claim reaches that case and it is
modelled as the empty record. -/
def mapRows (results : Option (List QueryResult)) : List SearchEmbeddingsResponse :=
  match results with
  | none => []
  | some rs =>
    (rs.map (fun qr =>
      match qr.rows, qr.columns with
      | some rows, some _ =>
        rows.map (fun row =>
          { id := jsNumberOfCell (row.get? 0),
            content := jsStringOfCell (row.get? 1),
            metadata := (jsonParseFlat (jsStringOfCell (row.get? 2))).getD [],
            similarity := jsNumberOfCell (row.get? 3) })
      | _, _ => [])).flatten

/-- `number.toString()`. -/
def jsNumberToString : JSNumber → String
  | some n => toString n
  | none => "NaN"

/-- `mapSearches(searches)` (source lines 802-813). -/
def mapSearches (searches : List SearchEmbeddingsResponse) : List (LCDocument × JSNumber) :=
  searches.map (fun resp =>
    ({ pageContent := some resp.content, metadata := resp.metadata,
       id := some (jsNumberToString resp.id) }, resp.similarity))

/-- `searchError(error)` (source lines 712-726): one synthetic result whose
page content is `JSON.stringify(error)` (the JavaScript `undefined` when the
error object itself is `undefined`), tagged `searchtype: 'error'`, score 0. -/
def searchError (error : Option DbError) : List (LCDocument × JSNumber) :=
  [({ pageContent :=
        match error with
        | none => none
        | some e => some (jsonStringify
            [("message", JValue.jstr e.message), ("operation", JValue.jstr e.operation)]),
      metadata := [("searchtype", JValue.jstr "error")],
      id := none }, some 0)]

/-- `similaritySearchVectorWithScore` (source lines 601-627) as a function of
the `useQuery` response (the SQL string it sends is `similarityQueryString`).
When the response has no `data`, the code first calls `errorHandler` — which
throws if an error object is present — and only then returns
`searchError(error)`; with `data` present it maps the rows. -/
def similaritySearchVectorWithScore (resp : AzionDatabaseQueryResponse) :
    Except String (List (LCDocument × JSNumber)) :=
  match resp.data with
  | none =>
    match errorHandler resp.error "Error performing similarity search" with
    | .error e => .error e
    | .ok _ => .ok (searchError resp.error)
  | some d => .ok (mapSearches (mapRows d.results))

/-- `AzionFullTextSearch` (source lines 638-663) as a function of the
`useQuery` response (the SQL string it sends is `fullTextQueryString`). -/
def AzionFullTextSearch (resp : AzionDatabaseQueryResponse) :
    Except String (List (LCDocument × JSNumber)) :=
  match resp.data with
  | none =>
    match errorHandler resp.error "Error performing full-text search" with
    | .error e => .error e
    | .ok _ => .ok (searchError resp.error)
  | some d => .ok (mapSearches (mapRows d.results))

/-- `AzionHybridSearch` (source lines 675-687): full-text search first, then
the similarity search, then `removeDuplicates` on the concatenation; an
exception from either search propagates. -/
def AzionHybridSearch (kfts kvector : Nat) (ftsResp simResp : AzionDatabaseQueryResponse) :
    Except String (List (LCDocument × JSNumber)) :=
  match AzionFullTextSearch ftsResp with
  | .error e => .error e
  | .ok ftsResults =>
    match similaritySearchVectorWithScore simResp with
    | .error e => .error e
    | .ok vectorResults => .ok (removeDuplicates (ftsResults ++ vectorResults) kfts kvector)

/-! ## Table setup existence check -/

/-- The `mode` of `AzionSetupOptions`. -/
inductive SetupMode where
  | vector
  | hybrid
deriving DecidableEq

/-- `dataTables?.results?.[0]?.rows?.map(row => row[1])` (source line 310):
the second cell of each row of the first result, when all the optional
layers are present. -/
def extractTableNames (d : Option QueryData) : Option (List (Option JValue)) :=
  ((d.bind (fun x => x.results)).bind List.head?).bind
    (fun qr => qr.rows.map (fun rows => rows.map (fun row => row.get? 1)))

/-- `areTablesSetup(tables, mode)` (source lines 342-356). -/
def areTablesSetup (tables : Option (List (Option JValue))) (mode : SetupMode)
    (tableName : String) : Bool :=
  match tables with
  | none => false
  | some ts =>
    match mode with
    | .hybrid =>
      ts.contains (some (JValue.jstr tableName)) &&
        ts.contains (some (JValue.jstr (tableName ++ "_fts")))
    | .vector => ts.contains (some (JValue.jstr tableName))

/-- `handleTables(mode, columns)` (source lines 301-316) as a function of the
`getTables` response: after the error check, the result records whether the
table-creation statement batch (`setupTables`) is executed — `.ok true` means
the batch is issued, `.ok false` means creation is skipped. -/
def handleTables (mode : SetupMode) (tableName : String)
    (resp : AzionDatabaseQueryResponse) : Except String Bool :=
  match errorHandler resp.error "Error getting tables" with
  | .error e => .error e
  | .ok _ => .ok (!(areTablesSetup (extractTableNames resp.data) mode tableName))

/-! ## Concrete values used by the claim theorems -/

/-- Bool test used by the merge-quota statements: the result is tagged as a
similarity result. -/
def isSimilarityResult (r : LCDocument × JSNumber) : Bool :=
  decide (searchtype r.1 = some (JValue.jstr "similarity"))

/-- Bool test used by the merge-quota statements: the result is tagged as a
full-text result. -/
def isFtsResult (r : LCDocument × JSNumber) : Bool :=
  decide (searchtype r.1 = some (JValue.jstr "fulltextsearch"))

/-- The invariant carried through `removeDuplicatesLoop`: channel counts
bounded by the remaining quotas, every accepted result tagged by exactly one
channel, accepted ids distinct and disjoint from `seen`. -/
def MergeBounds (kfts kvector : Nat) (out : List (LCDocument × JSNumber))
    (seen : List (Option String)) (sc fc : Nat) : Prop :=
  out.countP isSimilarityResult ≤ kvector - sc ∧
  out.countP isFtsResult ≤ kfts - fc ∧
  out.length = out.countP isSimilarityResult + out.countP isFtsResult ∧
  (out.map (fun r => r.1.id)).Nodup ∧
  (∀ i ∈ out.map (fun r => r.1.id), i ∉ seen)

def charA : Char := Char.ofNat 97

/-- A statement of exactly 419430 bytes; two of them joined with one
separator measure 838861 bytes, one byte above `0.8 MiB = 838860.8`. -/
def bigA : String := String.mk (List.replicate 419430 charA)

/-- The character substitution the spec describes for `escapeQuotes`: each
single or double quote becomes a space. -/
def quoteToSpace (c : Char) : Char :=
  if c = squoteChar ∨ c = dquoteChar then spaceChar else c

/-- A `useQuery` response reporting a failure: no data, an error object. -/
def failedQueryResponse : AzionDatabaseQueryResponse :=
  ⟨none, some ⟨"db failure", "query"⟩⟩

/-- A `useQuery` response with neither data nor error. -/
def emptyQueryResponse : AzionDatabaseQueryResponse :=
  ⟨none, none⟩

/-- A `getTables` response listing the table `docs`. -/
def tablesPresentResponse : AzionDatabaseQueryResponse :=
  ⟨some ⟨some [⟨some ["type", "name"], some [[JValue.jstr "table", JValue.jstr "docs"]]⟩]⟩, none⟩

def rowWithTopic : rowsInterface :=
  ⟨"c1", [1], [("topic", JValue.jstr "x")]⟩

def rowWithoutTopic : rowsInterface :=
  ⟨"c2", [2], []⟩

/-- A row whose metadata value carries a single quote. -/
def quotedMetadataRow : rowsInterface :=
  ⟨"hello", [1, 2], [("note", JValue.jstr ("it" ++ sqS ++ "s"))]⟩

/-- A result document with the given id and `searchtype` tag. -/
def mkTaggedDoc (idStr st : String) : LCDocument :=
  ⟨some "c", [("searchtype", JValue.jstr st)], some idStr⟩

/-- The combined stream of the merge example in the spec: full-text results
with ids 1, 2, 3 followed by similarity results with ids 2, 4, 5. -/
def hybridExampleResults : List (LCDocument × JSNumber) :=
  [(mkTaggedDoc "1" "fulltextsearch", some 1), (mkTaggedDoc "2" "fulltextsearch", some 1),
   (mkTaggedDoc "3" "fulltextsearch", some 1), (mkTaggedDoc "2" "similarity", some 1),
   (mkTaggedDoc "4" "similarity", some 1), (mkTaggedDoc "5" "similarity", some 1)]

/-- A query containing a dot and a tab. -/
def tabQuery : String := "a.b" ++ String.singleton tabChar ++ "c"

/-! ## Helper lemmas -/

theorem mergeBounds_nil (kfts kvector : Nat) (seen : List (Option String)) (sc fc : Nat) :
    MergeBounds kfts kvector [] seen sc fc := by
  simp [MergeBounds]

theorem mergeBounds_cons_sim (kfts kvector : Nat) (r : LCDocument × JSNumber)
    (t : List (LCDocument × JSNumber)) (seen : List (Option String)) (sc fc : Nat)
    (hid : r.1.id ∉ seen) (hst : searchtype r.1 = some (JValue.jstr "similarity"))
    (hsc : sc < kvector) (ht : MergeBounds kfts kvector t (r.1.id :: seen) (sc + 1) fc) :
    MergeBounds kfts kvector (r :: t) seen sc fc := by
  obtain ⟨h1, h2, h3, h4, h5⟩ := ht
  have hsim : isSimilarityResult r = true := by simp [isSimilarityResult, hst]
  have hfts : isFtsResult r = false := by simp [isFtsResult, hst]
  have hc1 : (r :: t).countP isSimilarityResult = t.countP isSimilarityResult + 1 := by
    simp [List.countP_cons, hsim]
  have hc2 : (r :: t).countP isFtsResult = t.countP isFtsResult := by
    simp [List.countP_cons, hfts]
  refine ⟨?_, ?_, ?_, ?_, ?_⟩
  · rw [hc1]; omega
  · rw [hc2]; omega
  · rw [List.length_cons, hc1, hc2]; omega
  · rw [List.map_cons, List.nodup_cons]
    exact ⟨fun hmem => (h5 _ hmem) (List.mem_cons_self _ _), h4⟩
  · intro i hi
    rcases List.mem_cons.mp hi with h | h
    · exact h ▸ hid
    · intro hmem; exact (h5 i h) (List.mem_cons_of_mem _ hmem)

theorem mergeBounds_cons_fts (kfts kvector : Nat) (r : LCDocument × JSNumber)
    (t : List (LCDocument × JSNumber)) (seen : List (Option String)) (sc fc : Nat)
    (hid : r.1.id ∉ seen) (hst : searchtype r.1 = some (JValue.jstr "fulltextsearch"))
    (hfc : fc < kfts) (ht : MergeBounds kfts kvector t (r.1.id :: seen) sc (fc + 1)) :
    MergeBounds kfts kvector (r :: t) seen sc fc := by
  obtain ⟨h1, h2, h3, h4, h5⟩ := ht
  have hsim : isSimilarityResult r = false := by simp [isSimilarityResult, hst]
  have hfts : isFtsResult r = true := by simp [isFtsResult, hst]
  have hc1 : (r :: t).countP isSimilarityResult = t.countP isSimilarityResult := by
    simp [List.countP_cons, hsim]
  have hc2 : (r :: t).countP isFtsResult = t.countP isFtsResult + 1 := by
    simp [List.countP_cons, hfts]
  refine ⟨?_, ?_, ?_, ?_, ?_⟩
  · rw [hc1]; omega
  · rw [hc2]; omega
  · rw [List.length_cons, hc1, hc2]; omega
  · rw [List.map_cons, List.nodup_cons]
    exact ⟨fun hmem => (h5 _ hmem) (List.mem_cons_self _ _), h4⟩
  · intro i hi
    rcases List.mem_cons.mp hi with h | h
    · exact h ▸ hid
    · intro hmem; exact (h5 i h) (List.mem_cons_of_mem _ hmem)

theorem removeDuplicatesLoop_bounds (kfts kvector : Nat)
    (results : List (LCDocument × JSNumber)) :
    ∀ (seen : List (Option String)) (sc fc : Nat),
      MergeBounds kfts kvector (removeDuplicatesLoop kfts kvector results seen sc fc)
        seen sc fc := by
  induction results with
  | nil =>
    intro seen sc fc
    simp only [removeDuplicatesLoop]
    exact mergeBounds_nil _ _ _ _ _
  | cons result rest ih =>
    intro seen sc fc
    simp only [removeDuplicatesLoop]
    by_cases h1 : result.1.id ∉ seen ∧ searchtype result.1 = some (JValue.jstr "similarity") ∧
        sc < kvector
    · rw [if_pos h1]
      refine mergeBounds_cons_sim _ _ _ _ _ _ _ h1.1 h1.2.1 h1.2.2 ?_
      by_cases hb : sc + 1 + fc = kfts + kvector
      · rw [if_pos hb]; exact mergeBounds_nil _ _ _ _ _
      · rw [if_neg hb]; exact ih _ _ _
    · rw [if_neg h1]
      by_cases h2 : result.1.id ∉ seen ∧
          searchtype result.1 = some (JValue.jstr "fulltextsearch") ∧ fc < kfts
      · rw [if_pos h2]
        refine mergeBounds_cons_fts _ _ _ _ _ _ _ h2.1 h2.2.1 h2.2.2 ?_
        by_cases hb : sc + (fc + 1) = kfts + kvector
        · rw [if_pos hb]; exact mergeBounds_nil _ _ _ _ _
        · rw [if_neg hb]; exact ih _ _ _
      · rw [if_neg h2]
        by_cases hb : sc + fc = kfts + kvector
        · rw [if_pos hb]; exact mergeBounds_nil _ _ _ _ _
        · rw [if_neg hb]; exact ih _ _ _

theorem utf8ByteSize_eq_go (s : String) : s.utf8ByteSize = String.utf8ByteSize.go s.data := by
  cases s; rfl

theorem utf8go_append (l1 l2 : List Char) :
    String.utf8ByteSize.go (l1 ++ l2) =
      String.utf8ByteSize.go l1 + String.utf8ByteSize.go l2 := by
  induction l1 with
  | nil => simp [String.utf8ByteSize.go]
  | cons c cs ih => simp [String.utf8ByteSize.go, ih]; omega

theorem getStringBytes_append (a b : String) :
    getStringBytes (a ++ b) = getStringBytes a + getStringBytes b := by
  simp only [getStringBytes, utf8ByteSize_eq_go, String.data_append, utf8go_append]

theorem getStringBytes_space : getStringBytes " " = 1 := by decide

theorem getStringBytes_joinWith_concat (l : List String) (s : String) (h : l ≠ []) :
    getStringBytes (joinWith " " (l ++ [s])) =
      getStringBytes (joinWith " " l) + 1 + getStringBytes s := by
  induction l with
  | nil => exact absurd rfl h
  | cons a t ih =>
    cases t with
    | nil =>
      show getStringBytes (a ++ " " ++ s) = getStringBytes a + 1 + getStringBytes s
      rw [getStringBytes_append, getStringBytes_append, getStringBytes_space]
    | cons b t2 =>
      show getStringBytes (a ++ " " ++ joinWith " " ((b :: t2) ++ [s])) = _
      rw [getStringBytes_append, getStringBytes_append, getStringBytes_space,
        ih (by simp)]
      show _ = getStringBytes (a ++ " " ++ joinWith " " (b :: t2)) + 1 + getStringBytes s
      rw [getStringBytes_append, getStringBytes_append, getStringBytes_space]
      omega

theorem createInsertChunksLoop_chunkOK (rest : List String) :
    ∀ (array : List String), array.length ≤ maxChunkLength →
      (getStringBytes (joinWith " " array) ≤ maxMbFloor + 1 ∨ ∃ s, array = [s]) →
      ∀ c ∈ createInsertChunksLoop array rest,
        c.length ≤ maxChunkLength ∧
          (getStringBytes (joinWith " " c) ≤ maxMbFloor + 1 ∨
            ∃ s, c = [s] ∧ maxMbFloor < getStringBytes s) := by
  induction rest with
  | nil => intro array _ _ c hc; simp [createInsertChunksLoop] at hc
  | cons statement rest2 ih =>
    intro array hlen hsz c hc
    simp only [createInsertChunksLoop] at hc
    by_cases hover : maxMbFloor < getStringBytes statement + getStringBytes (joinWith " " array)
        ∨ maxChunkLength < array.length + 1
    · rw [if_pos hover] at hc
      rcases List.mem_cons.mp hc with hc | hc
      · subst hc
        refine ⟨hlen, ?_⟩
        by_cases hb : getStringBytes (joinWith " " c) ≤ maxMbFloor + 1
        · exact Or.inl hb
        · rcases hsz with hsz | ⟨s, rfl⟩
          · exact absurd hsz hb
          · refine Or.inr ⟨s, rfl, ?_⟩
            have : getStringBytes (joinWith " " [s]) = getStringBytes s := rfl
            omega
      · exact ih [statement] (by simp [maxChunkLength]) (Or.inr ⟨statement, rfl⟩) c hc
    · rw [if_neg hover] at hc
      push_neg at hover
      obtain ⟨hb, hl⟩ := hover
      have harrsz : getStringBytes (joinWith " " (array ++ [statement])) ≤ maxMbFloor + 1 := by
        cases array with
        | nil =>
          have h1 : getStringBytes (joinWith " " (([] : List String) ++ [statement])) =
              getStringBytes statement := rfl
          have h0 : getStringBytes (joinWith " " ([] : List String)) = 0 := by decide
          omega
        | cons a t =>
          rw [getStringBytes_joinWith_concat _ _ (by simp)]
          omega
      have harrlen : (array ++ [statement]).length ≤ maxChunkLength := by
        simp; omega
      by_cases hrest : rest2 = []
      · rw [if_pos hrest] at hc
        have : c = array ++ [statement] := by simpa using hc
        subst this
        exact ⟨harrlen, Or.inl harrsz⟩
      · rw [if_neg hrest] at hc
        exact ih (array ++ [statement]) harrlen (Or.inl harrsz) c hc

theorem utf8Len_replicate_charA (n : Nat) :
    String.utf8Len (List.replicate n charA) = n := by
  induction n with
  | zero => rfl
  | succ m ih =>
    have hA : charA.utf8Size = 1 := by decide
    rw [List.replicate_succ, String.utf8Len_cons, ih, hA]

theorem getStringBytes_bigA : getStringBytes bigA = 419430 := by
  show String.utf8ByteSize (String.mk (List.replicate 419430 charA)) = 419430
  rw [String.utf8ByteSize_mk]
  exact utf8Len_replicate_charA 419430

theorem joinWith_nil_bytes : getStringBytes (joinWith " " ([] : List String)) = 0 := by decide

theorem createInsertChunks_pair (A : String) (hA : getStringBytes A = 419430) :
    createInsertChunks [A, A] = [[A, A]] := by
  have h2 : getStringBytes (joinWith " " [A]) = 419430 := hA
  have h3 : getStringBytes (joinWith " " [A, A]) = 838861 := by
    show getStringBytes (A ++ " " ++ joinWith " " [A]) = 838861
    rw [getStringBytes_append, getStringBytes_append, getStringBytes_space, h2, hA]
  simp only [createInsertChunks]
  have hc0 : ¬(getStringBytes (joinWith " " [A, A]) ≤ maxMbFloor ∧
      ([A, A] : List String).length < maxChunkLength) := by
    rw [h3]; intro hcon; simp only [maxMbFloor] at hcon; omega
  rw [if_neg hc0]
  simp only [createInsertChunksLoop, List.nil_append]
  have hc1 : ¬(maxMbFloor < getStringBytes A + getStringBytes (joinWith " " ([] : List String))
      ∨ maxChunkLength < ([] : List String).length + 1) := by
    rw [hA, joinWith_nil_bytes]
    intro hcon
    simp only [maxMbFloor, maxChunkLength, List.length_nil] at hcon
    omega
  rw [if_neg hc1]
  have hc2 : ¬(([A] : List String) = []) := by simp
  rw [if_neg hc2]
  have hc3 : ¬(maxMbFloor < getStringBytes A + getStringBytes (joinWith " " [A])
      ∨ maxChunkLength < ([A] : List String).length + 1) := by
    rw [hA, h2]
    intro hcon
    simp only [maxMbFloor, maxChunkLength, List.length_cons, List.length_nil] at hcon
    omega
  rw [if_neg hc3]
  simp

theorem getStringBytes_a : getStringBytes "a" = 1 := by decide

theorem joinA_size (k : Nat) :
    getStringBytes (joinWith " " (List.replicate (k + 1) "a")) = 2 * k + 1 := by
  induction k with
  | zero => decide
  | succ m ih =>
    rw [List.replicate_succ, List.replicate_succ]
    show getStringBytes ("a" ++ " " ++ joinWith " " ("a" :: List.replicate m "a")) = _
    rw [getStringBytes_append, getStringBytes_append, getStringBytes_space, getStringBytes_a,
      ← List.replicate_succ, ih]
    omega

theorem joinA_size_le (k : Nat) :
    getStringBytes (joinWith " " (List.replicate k "a")) ≤ 2 * k := by
  cases k with
  | zero => decide
  | succ m => rw [joinA_size]; omega

theorem loopA (n : Nat) : ∀ k, 1 ≤ n → k + n = 1001 →
    createInsertChunksLoop (List.replicate k "a") (List.replicate n "a") =
      [List.replicate 1000 "a"] := by
  induction n with
  | zero => intro k h _; omega
  | succ m ih =>
    intro k _ hk
    rw [List.replicate_succ]
    simp only [createInsertChunksLoop]
    by_cases hm : m = 0
    · subst hm
      have hk1000 : k = 1000 := by omega
      subst hk1000
      rw [if_pos (Or.inr (by rw [List.length_replicate]; decide))]
      rfl
    · have hk999 : k ≤ 999 := by omega
      have hc1 : ¬(maxMbFloor < getStringBytes "a" +
          getStringBytes (joinWith " " (List.replicate k "a")) ∨
          maxChunkLength < (List.replicate k "a").length + 1) := by
        have hsz := joinA_size_le k
        rw [getStringBytes_a, List.length_replicate]
        intro hcon
        simp only [maxMbFloor, maxChunkLength] at hcon
        omega
      rw [if_neg hc1]
      have hc2 : ¬(List.replicate m "a" = []) := by
        intro hh
        exact hm (by simpa using congrArg List.length hh)
      rw [if_neg hc2]
      rw [show List.replicate k "a" ++ ["a"] = List.replicate (k + 1) "a" from
        (List.replicate_succ' _ _).symm]
      exact ih (k + 1) (by omega) (by omega)

theorem createInsertChunks_replicate1001 :
    createInsertChunks (List.replicate 1001 "a") = [List.replicate 1000 "a"] := by
  simp only [createInsertChunks]
  have hc : ¬(getStringBytes (joinWith " " (List.replicate 1001 "a")) ≤ maxMbFloor ∧
      (List.replicate 1001 "a").length < maxChunkLength) := by
    rw [List.length_replicate]
    intro hcon
    simp only [maxChunkLength] at hcon
    omega
  rw [if_neg hc]
  exact loopA 1001 0 (by omega) (by omega)

theorem escapeQuotesStr_eq (s : String) :
    escapeQuotesStr s = String.mk (s.data.map quoteToSpace) := by
  simp only [escapeQuotesStr, List.map_map]
  have hfun : ((fun c => if c = dquoteChar then spaceChar else c) ∘
      (fun c => if c = squoteChar then spaceChar else c)) = quoteToSpace := by
    funext c
    simp only [Function.comp, quoteToSpace]
    by_cases h1 : c = squoteChar
    · subst h1; decide
    · by_cases h2 : c = dquoteChar
      · subst h2; decide
      · simp [h1, h2]
  rw [hfun]

theorem jsSplitOnSpace_ne_nil (l : List Char) : jsSplitOnSpace l ≠ [] := by
  cases l with
  | nil => simp [jsSplitOnSpace]
  | cons c rest =>
    simp only [jsSplitOnSpace]
    cases h : jsSplitOnSpace rest with
    | nil => simp
    | cons w ws => by_cases hc : c = spaceChar <;> simp [hc]

theorem jsSplitOnSpace_chars (l : List Char) :
    ∀ w ∈ jsSplitOnSpace l, ∀ c ∈ w, c ∈ l := by
  induction l with
  | nil =>
    intro w hw c hc
    simp [jsSplitOnSpace] at hw
    subst hw
    simp at hc
  | cons a rest ih =>
    intro w hw c hc
    simp only [jsSplitOnSpace] at hw
    cases h : jsSplitOnSpace rest with
    | nil => exact absurd h (jsSplitOnSpace_ne_nil rest)
    | cons w0 ws =>
      rw [h] at hw
      dsimp only at hw
      by_cases ha : a = spaceChar
      · rw [if_pos ha] at hw
        rcases List.mem_cons.mp hw with rfl | hw2
        · simp at hc
        · exact List.mem_cons_of_mem _ (ih w (h ▸ hw2) c hc)
      · rw [if_neg ha] at hw
        rcases List.mem_cons.mp hw with rfl | hw2
        · rcases List.mem_cons.mp hc with rfl | hc2
          · exact List.mem_cons_self _ _
          · have hw0 : w0 ∈ jsSplitOnSpace rest := by
              rw [h]; exact List.mem_cons_self _ _
            exact List.mem_cons_of_mem _ (ih w0 hw0 c hc2)
        · have hwmem : w ∈ jsSplitOnSpace rest := by
            rw [h]; exact List.mem_cons_of_mem _ hw2
          exact List.mem_cons_of_mem _ (ih w hwmem c hc)

theorem joinWith_chars (sep : String) (parts : List String) (P : Char → Prop)
    (hp : ∀ s ∈ parts, ∀ c ∈ s.data, P c) (hs : ∀ c ∈ sep.data, P c) :
    ∀ c ∈ (joinWith sep parts).data, P c := by
  induction parts with
  | nil => intro c hc; simp [joinWith] at hc
  | cons s t ih =>
    cases t with
    | nil =>
      intro c hc
      exact hp s (by simp) c (by simpa [joinWith] using hc)
    | cons s2 t2 =>
      intro c hc
      simp only [joinWith, String.data_append, List.mem_append] at hc
      rcases hc with (hc | hc) | hc
      · exact hp s (by simp) c hc
      · exact hs c hc
      · exact ih (fun x hx => hp x (List.mem_cons_of_mem _ hx)) c hc

theorem ftsMatchPattern_chars (query : String) :
    ∀ c ∈ (ftsMatchPattern query).data, isAsciiAlphanum c = true ∨ isJsWhitespace c = true := by
  intro c hc
  simp only [ftsMatchPattern] at hc
  refine joinWith_chars " OR "
    ((jsSplitOnSpace (query.data.filter (fun c => isAsciiAlphanum c || isJsWhitespace c))).map
      String.mk)
    (fun c => isAsciiAlphanum c = true ∨ isJsWhitespace c = true) ?_ ?_ c hc
  · intro s hsmem c2 hc2
    rcases List.mem_map.mp hsmem with ⟨w, hw, rfl⟩
    have hcw : c2 ∈ w := hc2
    have hcf := jsSplitOnSpace_chars _ w hw c2 hcw
    have hpred := (List.mem_filter.mp hcf).2
    simpa [Bool.or_eq_true] using hpred
  · intro c2 hc2
    have hdata : (" OR " : String).data =
        [spaceChar, Char.ofNat 79, Char.ofNat 82, spaceChar] := by decide
    rw [hdata] at hc2
    simp only [List.mem_cons, List.not_mem_nil, or_false] at hc2
    rcases hc2 with rfl | rfl | rfl | rfl <;> decide

/-! ## Claim theorems -/

/-- C1. The claim states that the concatenation of the chunks returned by
`createInsertChunks` always equals the input list, no statement being
dropped, and that the last statement is always included in the final chunk.
The code violates this: when processing the last statement overflows the
accumulating chunk (here via the count bound, 1001 statements), the overflow
branch pushes the previous chunk and re-binds `array = [statement]`, but the
loop then ends without ever pushing that final one-element array, so the
last statement is silently dropped. On 1001 copies of `"a"`, the code
returns one chunk holding only the first 1000 statements, and the flattened
output differs from the input. -/
theorem createInsertChunks_drops_last_statement :
    createInsertChunks (List.replicate 1001 "a") = [List.replicate 1000 "a"] ∧
    (createInsertChunks (List.replicate 1001 "a")).flatten ≠ List.replicate 1001 "a" := by
  refine ⟨createInsertChunks_replicate1001, ?_⟩
  rw [createInsertChunks_replicate1001]
  intro h
  have h1 : ([List.replicate 1000 "a"]).flatten = List.replicate 1000 "a" := by
    rw [List.flatten_cons, List.flatten_nil, List.append_nil]
  rw [h1] at h
  have h2 := congrArg List.length h
  rw [List.length_replicate, List.length_replicate] at h2
  omega

/-- C2. The claim states that when the query collaborator reports a failure,
each search operation does not raise but returns one synthetic result
tagged `searchtype: error` with score 0. The code violates this: with
`data` absent and an error object present, `errorHandler` throws before the
`return this.searchError(error)` line is reached, so the similarity search,
the full-text search and hence the hybrid search all raise the error
message. The synthetic tagged result is only produced in the unreported
case where the response carries neither data nor error (last conjunct). -/
theorem search_failure_raises :
    similaritySearchVectorWithScore failedQueryResponse = .error "db failure" ∧
    AzionFullTextSearch failedQueryResponse = .error "db failure" ∧
    AzionHybridSearch 2 2 failedQueryResponse failedQueryResponse = .error "db failure" ∧
    similaritySearchVectorWithScore emptyQueryResponse =
      .ok [(⟨none, [("searchtype", JValue.jstr "error")], none⟩, some 0)] :=
  ⟨rfl, rfl, rfl, rfl⟩

/-- C3. For every combined result sequence and quotas `(kfts, kvector)`, the
output of `removeDuplicates` has length at most `kfts + kvector`, contains
no two results with the same document id, at most `kvector` results tagged
`similarity` and at most `kfts` results tagged `fulltextsearch`. -/
theorem removeDuplicates_quotas (results : List (LCDocument × JSNumber)) (kfts kvector : Nat) :
    (removeDuplicates results kfts kvector).length ≤ kfts + kvector ∧
    ((removeDuplicates results kfts kvector).map (fun r => r.1.id)).Nodup ∧
    (removeDuplicates results kfts kvector).countP isSimilarityResult ≤ kvector ∧
    (removeDuplicates results kfts kvector).countP isFtsResult ≤ kfts := by
  obtain ⟨h1, h2, h3, h4, _⟩ :=
    removeDuplicatesLoop_bounds kfts kvector results [] 0 0
  simp only [removeDuplicates]
  exact ⟨by omega, h4, by omega, by omega⟩

/-- C4 counterexample. The claim bounds every multi-statement chunk by
`maxBytes = 0.8 MiB = 838860.8` bytes. The two statements of `bigA` measure
419430 bytes each, the size check `419430 + 419430 = 838860 > 838860.8` is
false, so both land in one chunk whose joined size is
`maxMbFloor + 1 = 838861 > 838860.8` bytes — a two-statement chunk above the
bound, because the check omits the one-byte separator of the join. -/
theorem createInsertChunks_chunk_exceeds_maxBytes :
    [bigA, bigA] ∈ createInsertChunks [bigA, bigA] ∧
    getStringBytes (joinWith " " [bigA, bigA]) = maxMbFloor + 1 ∧
    ([bigA, bigA] : List String).length = 2 := by
  refine ⟨?_, ?_, rfl⟩
  · rw [createInsertChunks_pair bigA getStringBytes_bigA]
    exact List.mem_singleton.mpr rfl
  · show getStringBytes (bigA ++ " " ++ joinWith " " [bigA]) = maxMbFloor + 1
    have h2 : getStringBytes (joinWith " " [bigA]) = 419430 := getStringBytes_bigA
    rw [getStringBytes_append, getStringBytes_append, getStringBytes_space,
      getStringBytes_bigA, h2]
    simp only [maxMbFloor]

/-- C4 (amended). Every chunk produced by `createInsertChunks` has at most
`maxChunkLength = 1000` statements, and its UTF-8 size measured as the
statements joined with single-space separators is at most
`maxMbFloor + 1 = 838861` bytes — one byte above the `0.8 MiB = 838860.8`
ceiling, because the accumulation check adds the incoming statement without
the joining separator byte — unless the chunk is a single statement that
alone exceeds the ceiling. -/
theorem createInsertChunks_size_bound (statements : List String) (c : List String)
    (hc : c ∈ createInsertChunks statements) :
    c.length ≤ maxChunkLength ∧
      (getStringBytes (joinWith " " c) ≤ maxMbFloor + 1 ∨
        ∃ s, c = [s] ∧ maxMbFloor < getStringBytes s) := by
  simp only [createInsertChunks] at hc
  by_cases hfast : getStringBytes (joinWith " " statements) ≤ maxMbFloor ∧
      statements.length < maxChunkLength
  · rw [if_pos hfast] at hc
    have : c = statements := by simpa using hc
    subst this
    exact ⟨by omega, Or.inl (by omega)⟩
  · rw [if_neg hfast] at hc
    exact createInsertChunksLoop_chunkOK statements [] (by simp [maxChunkLength])
      (Or.inl (by simp [joinWith]; decide)) c hc

/-- C4 witness: the bound theorem applied to the singleton batch `["x"]`,
whose only chunk is `["x"]` itself. -/
theorem createInsertChunks_size_bound_witness :
    (["x"] : List String).length ≤ maxChunkLength ∧
      (getStringBytes (joinWith " " ["x"]) ≤ maxMbFloor + 1 ∨
        ∃ s, (["x"] : List String) = [s] ∧ maxMbFloor < getStringBytes s) :=
  createInsertChunks_size_bound ["x"] ["x"] (by decide)

/-- C5 counterexample. The claim predicts merged ids `[1, 2, 4]` for
full-text ids `[1, 2, 3]` followed by similarity ids `[2, 4, 5]` with
`kfts = kvector = 2`. The code disagrees: after accepting 1 and 2 from the
full-text channel and 4 from the similarity channel the total is 3, the
stopping rule `similarityCount + ftsCount === kfts + kvector` does not hold
yet, and the unique similarity candidate 5 is also accepted. -/
theorem removeDuplicates_example_ne_claimed :
    (removeDuplicates hybridExampleResults 2 2).map (fun r => r.1.id) ≠
      [some "1", some "2", some "4"] := by decide

/-- C5 (amended). On full-text ids `[1, 2, 3]` followed by similarity ids
`[2, 4, 5]` with `kfts = kvector = 2`, the merge yields the documents with
ids `[1, 2, 4, 5]`: id 2 is claimed by full-text because it appears first,
id 3 is skipped because the full-text quota is exhausted, and iteration
stops only when `similarityCount + ftsCount` reaches `kfts + kvector = 4`,
which happens after accepting id 5. -/
theorem removeDuplicates_example_actual :
    removeDuplicates hybridExampleResults 2 2 =
      [(mkTaggedDoc "1" "fulltextsearch", some 1), (mkTaggedDoc "2" "fulltextsearch", some 1),
       (mkTaggedDoc "4" "similarity", some 1), (mkTaggedDoc "5" "similarity", some 1)] := by
  decide

/-- C6. If the table-listing query succeeds and `areTablesSetup` reports the
required tables present (in hybrid mode both the table and its `_fts` shadow
table), `handleTables` does not issue the table-creation statement batch
(`.ok false`), so a second `setupDatabase` call after a successful first one
issues no second creation batch. -/
theorem handleTables_skips_creation (mode : SetupMode) (tableName : String)
    (resp : AzionDatabaseQueryResponse) (he : resp.error = none)
    (hsetup : areTablesSetup (extractTableNames resp.data) mode tableName = true) :
    handleTables mode tableName resp = .ok false := by
  simp only [handleTables, he, errorHandler, hsetup, Bool.not_true]

/-- C6 witness: a listing response naming the table `docs` makes the vector
mode setup skip creation. -/
theorem handleTables_skips_creation_witness :
    handleTables SetupMode.vector "docs" tablesPresentResponse = .ok false :=
  handleTables_skips_creation SetupMode.vector "docs" tablesPresentResponse rfl (by decide)

/-- C7. The claim states that in expanded mode a declared metadata column
missing from a row is rendered as null through the escaper. The code
violates this: the lookup `row.metadata?.[col] ?? null` produces `null`, and
`escapeQuotes(null)` evaluates `null.replace`, which throws a `TypeError`,
so no statement is generated for such a row (first conjunct, on a batch
whose second row lacks the declared `topic` key). For a row that has a
string value for every declared column the statement is rendered as the
claim describes (second conjunct). -/
theorem expanded_missing_key_throws :
    createStatements true "docs" [rowWithTopic, rowWithoutTopic] =
      .error "TypeError: value.replace is not a function" ∧
    createInsertStatement true "docs" rowWithTopic ["topic"] =
      .ok ("INSERT INTO docs (content, embedding, topic) \n      VALUES (" ++ sqS ++ "c1" ++ sqS
        ++ ", vector(" ++ sqS ++ "[1]" ++ sqS ++ "), " ++ sqS ++ "x" ++ sqS ++ ")") := by
  constructor
  · rfl
  · rfl

/-- C8. For every document, the content value embedded in the generated
plain-mode insert statement equals the original content with every single
and double quote replaced by a space (`quoteToSpace` applied to each
character), and statement generation always succeeds on it: the stored
content is the sanitized form, not the original. -/
theorem insert_content_sanitized (tableName content : String) (embedding : List Int)
    (metadata : JRecord) :
    createInsertStatement false tableName ⟨content, embedding, metadata⟩ [] =
      .ok ("INSERT INTO " ++ tableName ++ " (content, embedding, metadata) \n    VALUES ("
        ++ sqS ++ String.mk (content.data.map quoteToSpace) ++ sqS ++ ", vector(" ++ sqS ++ "["
        ++ joinWith "," (embedding.map (fun n => toString n)) ++ "]" ++ sqS ++ "), " ++ sqS
        ++ jsonStringify metadata ++ sqS ++ ")") := by
  rw [← escapeQuotesStr_eq]
  simp only [createInsertStatement, createInsertString, renderValuesPlain, escapeQuotes,
    toTemplateString, Bool.false_eq_true, if_false, joinWith]
  simp [joinWith, String.append_assoc]
  rw [← String.append_assoc ", " "vector("]
  simp [String.append_assoc]

/-- C9 counterexample. The claim states that the MATCH pattern equals the
query with all non-alphanumeric characters stripped. The regex class
`[^a-zA-Z0-9\s]` keeps whitespace, and the split only severs on single
spaces, so the tab of `"a.b<TAB>c"` survives into the pattern
`"ab<TAB>c"` even though a tab is not alphanumeric. -/
theorem fts_pattern_keeps_tab :
    ftsMatchPattern tabQuery = "ab" ++ String.singleton tabChar ++ "c" ∧
    tabChar ∈ (ftsMatchPattern tabQuery).data ∧
    isAsciiAlphanum tabChar = false := by
  refine ⟨by decide, by decide, by decide⟩

/-- C9 (amended). Every character of the MATCH pattern is an ASCII
alphanumeric or a JavaScript whitespace character — the query is stripped of
the remaining characters before the single-space split and the `OR` join —
and the generated full-text query places that pattern in its MATCH clause,
conjoins the rendered filters after it and limits the result to `kfts`
rows. -/
theorem fulltext_query_amended (expandedMetadata : Bool) (tableName query : String)
    (kfts : Nat) (filter : Option (List AzionFilter)) (metadataItems : Option (List String)) :
    (∀ c ∈ (ftsMatchPattern query).data, isAsciiAlphanum c = true ∨ isJsWhitespace c = true) ∧
    (∃ prefixPart,
      fullTextQueryString expandedMetadata tableName query kfts filter metadataItems =
        prefixPart ++ sqS ++ ftsMatchPattern query ++ sqS ++ " " ++ generateFilters filter
          ++ "\n      LIMIT " ++ toString kfts) := by
  refine ⟨ftsMatchPattern_chars query, ?_⟩
  refine ⟨"\n      SELECT id, content, "
    ++ generateMetadata expandedMetadata metadataItems "fulltextsearch"
    ++ ", rank as bm25_similarity\n      FROM " ++ tableName ++ "_fts  \n      WHERE "
    ++ tableName ++ "_fts MATCH ", ?_⟩
  simp [fullTextQueryString, String.append_assoc]

/-- C9 witness: the amended theorem applied to the query `"ab"` and its
pattern character `a`. -/
theorem fulltext_query_amended_witness :
    isAsciiAlphanum charA = true ∨ isJsWhitespace charA = true :=
  (fulltext_query_amended false "docs" "ab" 3 none none).1 charA (by decide)

/-- C10. In plain-metadata mode the JSON serialization of the metadata is
interpolated verbatim into the insert statement, without the quote
stripping applied to content: for a document whose metadata value contains a
single quote, the generated statement embeds that quote unchanged inside the
quoted metadata literal (and the serialized metadata does contain the
single-quote character). -/
theorem plain_metadata_unescaped :
    createInsertStatement false "docs" quotedMetadataRow [] =
      .ok ("INSERT INTO docs (content, embedding, metadata) \n    VALUES (" ++ sqS ++ "hello"
        ++ sqS ++ ", vector(" ++ sqS ++ "[1,2]" ++ sqS ++ "), " ++ sqS ++ "\x7b" ++ dqS ++ "note"
        ++ dqS ++ ":" ++ dqS ++ "it" ++ sqS ++ "s" ++ dqS ++ "\x7d" ++ sqS ++ ")") ∧
    squoteChar ∈ (jsonStringify quotedMetadataRow.metadata).data := by
  constructor
  · rfl
  · decide
